import Mathlib

/-!
Verification development for the genie-flow-invoker repository: a shallow
embedding of the invoker factory/registry (`genie_flow_invoker/factory.py`),
the bounded Neo4j query executor (`genie_flow_invoker/invoker/neo4j.py`) and
the Azure OpenAI chat adapter (`genie_flow_invoker/invoker/openai.py`),
together with theorems settling the specified properties.
-/

set_option autoImplicit false

namespace GenieFlow

/-! ## Python dictionaries

Python `dict` objects keyed by strings are embedded as association lists.
`dlookup` is `d[k]` (first binding wins; Python dicts have unique keys, which
callers record as a `Nodup` hypothesis on the key list where it matters).
`dinsert` is `d[k] = v` (replace in place, or append at the end) and
`dupdate` is `d.update(other)`.
-/

def dlookup {V : Type} : List (String × V) → String → Option V
  | [], _ => none
  | (k, v) :: rest, key => if k = key then some v else dlookup rest key

def dinsert {V : Type} : List (String × V) → String → V → List (String × V)
  | [], k, v => [(k, v)]
  | (k', v') :: rest, k, v =>
    if k' = k then (k', v) :: rest else (k', v') :: dinsert rest k v

def dupdate {V : Type} (d other : List (String × V)) : List (String × V) :=
  other.foldl (fun acc p => dinsert acc p.1 p.2) d

def dkeys {V : Type} (d : List (String × V)) : List String :=
  d.map Prod.fst

/-! ## Invoker factory (`factory.py`)

`InvokerFactory` holds the process-wide configuration (a dict keyed by
invoker type name, each value itself a config dict) and the registry (a dict
from type name to invoker class).  Invoker classes are opaque: the factory
model is polymorphic in the class type `C`, and `cls.from_config(config)` is
embedded as the pair `(cls, config)` — exactly the data handed to the
constructor.  Config values are scalars: strings or numbers.
-/

inductive ConfigValue : Type
  | str (s : String)
  | num (n : Int)
deriving DecidableEq

abbrev ConfigDict := List (String × ConfigValue)

inductive FactoryError : Type
  | invalidConfig
  | unknownType
  | alreadyRegistered
  | invalidPoolSize
deriving DecidableEq

structure InvokerFactory (C : Type) : Type where
  config : List (String × ConfigDict)
  registry : List (String × C)

/-- An invoker instance, as the constructor call `cls.from_config(config)`:
the resolved class together with the effective configuration passed to it. -/
abbrev Invoker (C : Type) := C × ConfigDict

/-- `InvokerFactory.register_invoker`: raises if the name is already
registered, otherwise inserts the association. -/
def register_invoker {C : Type} (f : InvokerFactory C) (invoker_name : String)
    (invoker_class : C) : InvokerFactory C × Except FactoryError Unit :=
  if (dlookup f.registry invoker_name).isSome then
    (f, .error .alreadyRegistered)
  else
    ({ f with registry := dinsert f.registry invoker_name invoker_class }, .ok ())

/-- `InvokerFactory.create_invoker`.  Mirrors the source line by line:
missing `type` key raises the invalid-config `ValueError`; a registry miss
raises the unknown-type `ValueError` (a non-string `type` value also misses
the string-keyed registry); otherwise
`config = self.config[invoker_type] if invoker_type in self.config.keys() else dict()`
takes the stored per-type dict itself (an alias, not a copy) or a fresh empty
dict, and `config.update(invoker_config)` mutates it in place — so in the
aliased case the factory's stored defaults entry becomes the effective
config.  The state threading makes that mutation explicit. -/
def create_invoker {C : Type} (f : InvokerFactory C) (invoker_config : ConfigDict) :
    InvokerFactory C × Except FactoryError (Invoker C) :=
  match dlookup invoker_config "type" with
  | none => (f, .error .invalidConfig)
  | some tv =>
    match tv with
    | .num _ => (f, .error .unknownType)
    | .str invoker_type =>
      match dlookup f.registry invoker_type with
      | none => (f, .error .unknownType)
      | some cls =>
        match dlookup f.config invoker_type with
        | some base =>
          let config := dupdate base invoker_config
          ({ f with config := dinsert f.config invoker_type config },
           .ok (cls, config))
        | none =>
          let config := dupdate [] invoker_config
          (f, .ok (cls, config))

/-- The factory's currently stored process-wide defaults for a type
(the empty dict when none are stored). -/
def currentDefaults {C : Type} (f : InvokerFactory C) (t : String) : ConfigDict :=
  (dlookup f.config t).getD []

/-- Loop body of `create_invoker_pool`: create `n` invokers in sequence
(each `queue.put(self.create_invoker(config))`), threading the factory state;
a creation failure propagates immediately. -/
def poolLoop {C : Type} (cfg : ConfigDict) :
    InvokerFactory C → Nat → List (Invoker C) →
    InvokerFactory C × Except FactoryError (List (Invoker C))
  | f, 0, acc => (f, .ok acc)
  | f, n + 1, acc =>
    match create_invoker f cfg with
    | (f', .ok inv) => poolLoop cfg f' n (acc ++ [inv])
    | (f', .error e) => (f', .error e)

/-- `InvokerFactory.create_invoker_pool`: `assert pool_size > 0` fails before
any invoker is constructed; otherwise builds the FIFO queue of `pool_size`
invokers. -/
def create_invoker_pool {C : Type} (f : InvokerFactory C) (pool_size : Int)
    (config : ConfigDict) :
    InvokerFactory C × Except FactoryError (List (Invoker C)) :=
  if pool_size ≤ 0 then (f, .error .invalidPoolSize)
  else poolLoop config f pool_size.toNat []

/-! ## Bounded Neo4j query executor (`invoker/neo4j.py`)

Record field values are the scalar part of `RecordFieldBaseType`
(strings, integers, null); a record is a list of them.  The driver-side
`Result` cursor after `execute_query` is embedded as the list of available
rows, the key tuple, and a flag saying whether `result.peek()` raises
`ResultConsumedError` (the cursor was exhausted/closed by the fetch).
The backing store's behaviour for one query is either that cursor or a
raised exception carrying its message string (`str(e)`). -/

inductive FieldVal : Type
  | s (v : String)
  | i (v : Int)
  | null
deriving DecidableEq

abbrev RecordRow := List FieldVal

structure Neo4jQueryResult : Type where
  headers : List String
  records : List RecordRow
  has_more : Bool
  error : Option String
deriving DecidableEq

/-- `Neo4jQueryResult.from_neo4j_result`: builds the result with
`error` left at its default `None`. -/
def Neo4jQueryResult.from_neo4j_result (records : List RecordRow)
    (keys : List String) (has_more : Bool) : Neo4jQueryResult :=
  { headers := keys, records := records, has_more := has_more, error := none }

def jsonEscapeChar (ch : Char) : String :=
  if ch = '\\' then "\\\\" else if ch = '\"' then "\\\"" else String.singleton ch

def jsonEscape (s : String) : String :=
  String.join (s.data.map jsonEscapeChar)

def jsonString (s : String) : String := "\"" ++ jsonEscape s ++ "\""

def jsonArray (xs : List String) : String := "[" ++ String.intercalate "," xs ++ "]"

def FieldVal.toJson : FieldVal → String
  | .s v => jsonString v
  | .i v => toString v
  | .null => "null"

/-- Pydantic `model_dump_json` for `Neo4jQueryResult`, fields in declaration
order `headers, records, has_more, error`, `null` for an unset error. -/
def Neo4jQueryResult.model_dump_json (r : Neo4jQueryResult) : String :=
  "\x7b\"headers\":" ++ jsonArray (r.headers.map jsonString) ++
  ",\"records\":" ++ jsonArray (r.records.map (fun rec => jsonArray (rec.map FieldVal.toJson))) ++
  ",\"has_more\":" ++ (if r.has_more then "true" else "false") ++
  ",\"error\":" ++ (match r.error with | none => "null" | some e => jsonString e) ++
  "\x7d"

structure Neo4jCursor : Type where
  rows : List RecordRow
  keys : List String
  peekConsumed : Bool
deriving DecidableEq

inductive BackingOutcome : Type
  | raises (msg : String)
  | success (res : Neo4jCursor)
deriving DecidableEq

structure Neo4jClient : Type where
  database_name : String
  limit : Nat
  query_timeout : Option Nat
  execute_write_queries : Bool
deriving DecidableEq

namespace Neo4jClient

/-- `Neo4jClient._limiting_transformer`: `records = result.fetch(self.limit)`
pulls at most `limit` rows; `has_more` starts `False` and is set from
`result.peek() is not None`, with `ResultConsumedError` swallowed
(`except ResultConsumedError: pass`). -/
def limiting_transformer (c : Neo4jClient) (result : Neo4jCursor) : Neo4jQueryResult :=
  let records := result.rows.take c.limit
  let keys := result.keys
  let has_more :=
    if result.peekConsumed then false
    else ((result.rows.drop c.limit).head?).isSome
  Neo4jQueryResult.from_neo4j_result records keys has_more

/-- The `Neo4jQueryResult` that `Neo4jClient.execute` serializes: the
transformed cursor on success, and on any exception the caught-and-converted
`Neo4jQueryResult(error=str(e))` with all other fields at their defaults. -/
def executeResult (c : Neo4jClient) (b : BackingOutcome) : Neo4jQueryResult :=
  match b with
  | .success res => c.limiting_transformer res
  | .raises msg => { headers := [], records := [], has_more := false, error := some msg }

/-- `Neo4jClient.execute`: total — every backing outcome, exceptional or not,
is returned to the caller as `model_dump_json` text; nothing propagates. -/
def execute (c : Neo4jClient) (b : BackingOutcome) : String :=
  (c.executeResult b).model_dump_json

end Neo4jClient

/-! ## Neo4j shared driver lifecycle (`invoker/neo4j.py`, module global)

`_DRIVER` is a module-level global, `None` at process start.
`Neo4jClientFactory.__init__` creates the driver from the resolved
connection parameters and calls `verify_connectivity()` only when the global
is still `None`; note the global is assigned *before* verification, and a
verification failure is not caught.  Whether `verify_connectivity` succeeds
is external-world behaviour, an input to each construction event. -/

structure Neo4jConnConfig : Type where
  database_uri : String
  username : String
  password : String
deriving DecidableEq

structure Driver : Type where
  uri : String
  auth : String × String
deriving DecidableEq

/-- `_create_driver`: `GraphDatabase.driver(uri=..., auth=(username, password))`. -/
def create_driver (cfg : Neo4jConnConfig) : Driver :=
  { uri := cfg.database_uri, auth := (cfg.username, cfg.password) }

deriving instance DecidableEq for Except

/-- Observable outcome of one `Neo4jClientFactory.__init__` call: whether it
created a driver, whether it called `verify_connectivity`, and whether the
construction returned normally or propagated a connectivity error. -/
structure InitOutcome : Type where
  createdDriver : Bool
  verifyAttempted : Bool
  result : Except String Unit
deriving DecidableEq

/-- One `Neo4jClientFactory.__init__` against the `_DRIVER` global:
`if _DRIVER is None:` create, assign the global, then verify (failure
propagates, but the assignment has already happened); otherwise reuse. -/
def neo4jFactoryInit (g : Option Driver) (cfg : Neo4jConnConfig) (verifyOk : Bool) :
    Option Driver × InitOutcome :=
  match g with
  | none =>
    (some (create_driver cfg),
     { createdDriver := true, verifyAttempted := true,
       result := if verifyOk then .ok () else .error "connectivity failure" })
  | some d => (some d, { createdDriver := false, verifyAttempted := false, result := .ok () })

/-- A sequence of factory constructions in one process, threading the
`_DRIVER` global and collecting each construction's outcome. -/
def runInits : Option Driver → List (Neo4jConnConfig × Bool) →
    Option Driver × List InitOutcome
  | g, [] => (g, [])
  | g, (cfg, v) :: rest =>
    let step := neo4jFactoryInit g cfg v
    let tail := runInits step.1 rest
    (tail.1, step.2 :: tail.2)

/-! ## Azure OpenAI chat adapter (`invoker/openai.py`)

A dialogue element is a JSON object of string fields, embedded as an
association list.  `_CHAT_COMPLETION_MAP` maps the three known roles to
their message-param classes.  `AzureOpenAIChatInvoker.invoke` first runs
`json.loads(content)`: the `json` library is external, so the adapter is
modelled on the parse outcome — `none` when the text is not parsable JSON,
`some elements` otherwise — and re-raises the unparsable-payload
`ValueError`.  Errors are the raised exceptions; they propagate (there is
no catch around message building). -/

inductive ChatCls : Type
  | system
  | assistant
  | user
deriving DecidableEq

def CHAT_COMPLETION_MAP : List (String × ChatCls) :=
  [("system", ChatCls.system), ("assistant", ChatCls.assistant), ("user", ChatCls.user)]

structure ChatMsg : Type where
  cls : ChatCls
  role : String
  content : String
deriving DecidableEq

inductive ChatError : Type
  | unparsablePayload
  | missingRole
  | unknownRole (role : String)
  | missingContent
deriving DecidableEq

/-- `chat_completion_message`: looks up `role` (KeyError "not provided a
role" when absent), resolves it in `_CHAT_COMPLETION_MAP` (KeyError
"unknown chat role" when absent), looks up `content` (KeyError "not
provided content" when absent), and builds `chat_cls(role=role, content=content)`. -/
def chat_completion_message (dialogue_element : List (String × String)) :
    Except ChatError ChatMsg :=
  match dlookup dialogue_element "role" with
  | none => .error .missingRole
  | some role =>
    match dlookup CHAT_COMPLETION_MAP role with
    | none => .error (.unknownRole role)
    | some chat_cls =>
      match dlookup dialogue_element "content" with
      | none => .error .missingContent
      | some content => .ok { cls := chat_cls, role := role, content := content }

/-- The list comprehension
`[chat_completion_message(element) for element in messages_raw]`:
elements are converted in order and the first raised error propagates. -/
def buildMessages : List (List (String × String)) → Except ChatError (List ChatMsg)
  | [] => .ok []
  | e :: rest =>
    match chat_completion_message e with
    | .error err => .error err
    | .ok m =>
      match buildMessages rest with
      | .error err => .error err
      | .ok ms => .ok (m :: ms)

/-- `AzureOpenAIChatInvoker.invoke` up to the vendor call: an unparsable
payload raises the descriptive `ValueError`; otherwise the message list is
built (errors propagating) and handed to the external SDK. -/
def azureChatInvoke (parsed : Option (List (List (String × String)))) :
    Except ChatError (List ChatMsg) :=
  match parsed with
  | none => .error .unparsablePayload
  | some messages_raw => buildMessages messages_raw

/-! ## Dictionary lemmas -/

theorem dlookup_dinsert_self {V : Type} (d : List (String × V)) (k : String) (v : V) :
    dlookup (dinsert d k v) k = some v := by
  induction d with
  | nil => simp [dinsert, dlookup]
  | cons p rest ih =>
    obtain ⟨k', v'⟩ := p
    by_cases h : k' = k
    · subst h
      simp [dinsert, dlookup]
    · simp [dinsert, dlookup, h, ih]

theorem dlookup_dinsert_ne {V : Type} (d : List (String × V)) (k k' : String) (v : V)
    (h : k' ≠ k) : dlookup (dinsert d k v) k' = dlookup d k' := by
  induction d with
  | nil => simp [dinsert, dlookup, Ne.symm h]
  | cons p rest ih =>
    obtain ⟨k0, v0⟩ := p
    by_cases hk : k0 = k
    · subst hk
      simp [dinsert, dlookup, Ne.symm h]
    · simp only [dinsert, if_neg hk, dlookup]
      by_cases hk' : k0 = k'
      · simp [hk']
      · simp [hk', ih]

theorem dlookup_none_of_not_mem {V : Type} (d : List (String × V)) (k : String)
    (h : k ∉ dkeys d) : dlookup d k = none := by
  induction d with
  | nil => rfl
  | cons p rest ih =>
    obtain ⟨k0, v0⟩ := p
    simp [dkeys] at h
    simp [dlookup, Ne.symm h.1, ih (by simp [dkeys, h.2])]

theorem dlookup_dupdate {V : Type} (d o : List (String × V))
    (h : (dkeys o).Nodup) (k : String) :
    dlookup (dupdate d o) k = (dlookup o k).or (dlookup d k) := by
  induction o generalizing d with
  | nil => simp [dupdate, dlookup]
  | cons p rest ih =>
    obtain ⟨k0, v0⟩ := p
    simp only [dkeys, List.map_cons, List.nodup_cons] at h
    have hstep : dupdate d ((k0, v0) :: rest) = dupdate (dinsert d k0 v0) rest := rfl
    rw [hstep, ih (dinsert d k0 v0) h.2]
    by_cases hk : k0 = k
    · subst hk
      rw [dlookup_none_of_not_mem rest k0 (by simpa [dkeys] using h.1),
        dlookup_dinsert_self]
      simp [dlookup]
    · rw [dlookup_dinsert_ne d k0 k v0 (Ne.symm hk)]
      simp [dlookup, hk]

/-! ## Claim theorems: factory -/

/-- Claim C1, counterexample.  With process-wide defaults
`{"sql": {"a": 1}}`, a first `create_invoker` call with step config
`{"type": "sql", "b": 2}` mutates the stored defaults; the effective
configuration of a second call with step config `{"type": "sql"}` maps
`"b"` to `2`, whereas the originally supplied defaults overlaid with that
step config leave `"b"` unmapped — so the effective configuration does not
equal originally-supplied-defaults overlaid with the step config for every
call in a sequence. -/
theorem create_invoker_original_defaults_counterexample :
    ((create_invoker
        (create_invoker
          (⟨[("sql", [("a", ConfigValue.num 1)])],
            [("sql", "SqlInvoker")]⟩ : InvokerFactory String)
          [("type", ConfigValue.str "sql"), ("b", ConfigValue.num 2)]).1
        [("type", ConfigValue.str "sql")]).2.toOption.map
          (fun inv => dlookup inv.2 "b")
      = some (some (ConfigValue.num 2)))
    ∧ ((dlookup [("type", ConfigValue.str "sql")] "b").or
        (dlookup [("a", ConfigValue.num 1)] "b") = none) := by
  constructor
  · rfl
  · rfl

/-- Claim C1, amended: for every `create_invoker` call that resolves, the
effective configuration passed to the constructor equals the factory's
*currently stored* defaults for that type (the empty mapping if none)
overlaid key-by-key with the step configuration, step values replacing
same-keyed defaults.  The stored defaults coincide with the originally
supplied ones only on the first call for a type (or always, when no
defaults were supplied for it). -/
theorem create_invoker_effective_config {C : Type} (f : InvokerFactory C)
    (ic : ConfigDict) (t : String) (cls : C)
    (htype : dlookup ic "type" = some (.str t))
    (hreg : dlookup f.registry t = some cls)
    (hnd : (dkeys ic).Nodup) :
    (create_invoker f ic).2 = .ok (cls, dupdate (currentDefaults f t) ic)
    ∧ ∀ k, dlookup (dupdate (currentDefaults f t) ic) k
        = (dlookup ic k).or (dlookup (currentDefaults f t) k) := by
  constructor
  · simp only [create_invoker, htype, hreg, currentDefaults]
    cases h : dlookup f.config t <;> simp [h]
  · intro k
    exact dlookup_dupdate _ _ hnd k

/-- Claim C1, witness for the amended theorem at the spec's own example:
defaults `{"sql": {"limit": 50}}`, step `{"type": "sql", "limit": 10}`. -/
theorem create_invoker_effective_config_witness :
    (create_invoker
        (⟨[("sql", [("limit", ConfigValue.num 50)])],
          [("sql", "SqlInvoker")]⟩ : InvokerFactory String)
        [("type", ConfigValue.str "sql"), ("limit", ConfigValue.num 10)]).2
      = .ok ("SqlInvoker",
          dupdate [("limit", ConfigValue.num 50)]
            [("type", ConfigValue.str "sql"), ("limit", ConfigValue.num 10)])
    ∧ dlookup (dupdate [("limit", ConfigValue.num 50)]
        [("type", ConfigValue.str "sql"), ("limit", ConfigValue.num 10)]) "limit"
      = some (ConfigValue.num 10) := by
  have h := create_invoker_effective_config
    (⟨[("sql", [("limit", ConfigValue.num 50)])],
      [("sql", "SqlInvoker")]⟩ : InvokerFactory String)
    [("type", ConfigValue.str "sql"), ("limit", ConfigValue.num 10)]
    "sql" "SqlInvoker" (by decide) (by decide) (by decide)
  exact ⟨h.1, by decide⟩

/-- Claim C5: a step configuration without a `type` key makes
`create_invoker` fail with the invalid-config error, and a `type` naming an
unregistered invoker makes it fail with the unknown-type error; in both
cases the factory is unchanged and no invoker is constructed (the result
carries no invoker). -/
theorem create_invoker_config_errors {C : Type} (f : InvokerFactory C)
    (ic ic2 : ConfigDict) (t : String)
    (hmiss : dlookup ic "type" = none)
    (htype : dlookup ic2 "type" = some (.str t))
    (hreg : dlookup f.registry t = none) :
    create_invoker f ic = (f, .error .invalidConfig)
    ∧ create_invoker f ic2 = (f, .error .unknownType) := by
  constructor
  · simp [create_invoker, hmiss]
  · simp [create_invoker, htype, hreg]

/-- Claim C5, witness: missing `type` key, and the spec's
`{"type": "nope"}` against a registry that only knows `verbatim`. -/
theorem create_invoker_config_errors_witness :
    create_invoker
      (⟨[], [("verbatim", "VerbatimInvoker")]⟩ : InvokerFactory String)
      [("x", ConfigValue.num 1)]
      = (⟨[], [("verbatim", "VerbatimInvoker")]⟩, .error .invalidConfig)
    ∧ create_invoker
      (⟨[], [("verbatim", "VerbatimInvoker")]⟩ : InvokerFactory String)
      [("type", ConfigValue.str "nope")]
      = (⟨[], [("verbatim", "VerbatimInvoker")]⟩, .error .unknownType) :=
  create_invoker_config_errors
    (⟨[], [("verbatim", "VerbatimInvoker")]⟩ : InvokerFactory String)
    [("x", ConfigValue.num 1)] [("type", ConfigValue.str "nope")] "nope"
    (by decide) (by decide) (by decide)

/-- Claim C6: registering an already-present name fails with the
already-registered error and leaves the factory unchanged; registering two
distinct fresh names succeeds and afterwards each resolves independently to
its own class — registration never overwrites an existing entry. -/
theorem register_invoker_collision_safe {C : Type} (f g : InvokerFactory C)
    (n : String) (c : C) (n1 n2 : String) (c1 c2 : C)
    (hdup : (dlookup f.registry n).isSome = true)
    (h1 : dlookup g.registry n1 = none)
    (h2 : dlookup g.registry n2 = none)
    (hne : n1 ≠ n2) :
    register_invoker f n c = (f, .error .alreadyRegistered)
    ∧ (register_invoker g n1 c1).2 = .ok ()
    ∧ (register_invoker (register_invoker g n1 c1).1 n2 c2).2 = .ok ()
    ∧ dlookup (register_invoker (register_invoker g n1 c1).1 n2 c2).1.registry n1
        = some c1
    ∧ dlookup (register_invoker (register_invoker g n1 c1).1 n2 c2).1.registry n2
        = some c2 := by
  have hg1 : register_invoker g n1 c1
      = ({ g with registry := dinsert g.registry n1 c1 }, .ok ()) := by
    simp [register_invoker, h1]
  have hlook2 : dlookup (dinsert g.registry n1 c1) n2 = none := by
    rw [dlookup_dinsert_ne g.registry n1 n2 c1 (Ne.symm hne)]
    exact h2
  have hg2 : register_invoker ({ g with registry := dinsert g.registry n1 c1 }) n2 c2
      = ({ g with registry := dinsert (dinsert g.registry n1 c1) n2 c2 }, .ok ()) := by
    simp [register_invoker, hlook2]
  refine ⟨by simp [register_invoker, hdup], ?_, ?_, ?_, ?_⟩
  · rw [hg1]
  · rw [hg1]
    simp only
    rw [hg2]
  · rw [hg1]
    simp only
    rw [hg2]
    simp only
    rw [dlookup_dinsert_ne (dinsert g.registry n1 c1) n2 n1 c2 hne,
      dlookup_dinsert_self]
  · rw [hg1]
    simp only
    rw [hg2]
    simp only
    rw [dlookup_dinsert_self]

/-- Claim C6, witness: on an empty registry, registering `a` twice fails the
second time, and registering `a` then `b` leaves both resolvable. -/
theorem register_invoker_collision_safe_witness :
    register_invoker
      (⟨[], [("a", "A")]⟩ : InvokerFactory String) "a" "A2"
      = (⟨[], [("a", "A")]⟩, .error .alreadyRegistered)
    ∧ dlookup (register_invoker
        (register_invoker (⟨[], []⟩ : InvokerFactory String) "a" "A").1
        "b" "B").1.registry "a" = some "A"
    ∧ dlookup (register_invoker
        (register_invoker (⟨[], []⟩ : InvokerFactory String) "a" "A").1
        "b" "B").1.registry "b" = some "B" := by
  have h := register_invoker_collision_safe
    (⟨[], [("a", "A")]⟩ : InvokerFactory String)
    (⟨[], []⟩ : InvokerFactory String)
    "a" "A2" "a" "b" "A" "B" (by decide) (by decide) (by decide) (by decide)
  exact ⟨h.1, h.2.2.2.1, h.2.2.2.2⟩

/-- Claim C7: `create_invoker_pool` with a zero or negative size fails with
the invalid-size error before constructing anything — the factory state is
returned untouched and no pool is produced. -/
theorem create_invoker_pool_positive_size {C : Type} (f : InvokerFactory C)
    (pool_size : Int) (cfg : ConfigDict) (h : pool_size ≤ 0) :
    create_invoker_pool f pool_size cfg = (f, .error .invalidPoolSize) := by
  simp [create_invoker_pool, h]

/-- Claim C7, witness at sizes `0` and `-3`. -/
theorem create_invoker_pool_positive_size_witness :
    create_invoker_pool
      (⟨[], [("verbatim", "VerbatimInvoker")]⟩ : InvokerFactory String)
      0 [("type", ConfigValue.str "verbatim")]
      = (⟨[], [("verbatim", "VerbatimInvoker")]⟩, .error .invalidPoolSize)
    ∧ create_invoker_pool
      (⟨[], [("verbatim", "VerbatimInvoker")]⟩ : InvokerFactory String)
      (-3) [("type", ConfigValue.str "verbatim")]
      = (⟨[], [("verbatim", "VerbatimInvoker")]⟩, .error .invalidPoolSize) :=
  ⟨create_invoker_pool_positive_size _ 0 _ (by decide),
   create_invoker_pool_positive_size _ (-3) _ (by decide)⟩

/-- Claim C10: when stored defaults exist for the resolved type,
`create_invoker` merges in place on the factory's stored defaults dict —
after the call the stored entry for that type is exactly the effective
configuration, it holds every key of the step configuration (including
`type`) at the step's value, and a subsequent call for the same type starts
from this mutated mapping (`currentDefaults` of the new state is the
mutated dict). -/
theorem create_invoker_mutates_defaults {C : Type} (f : InvokerFactory C)
    (ic : ConfigDict) (t : String) (cls : C) (base : ConfigDict)
    (htype : dlookup ic "type" = some (.str t))
    (hreg : dlookup f.registry t = some cls)
    (hdef : dlookup f.config t = some base)
    (hnd : (dkeys ic).Nodup) :
    dlookup (create_invoker f ic).1.config t = some (dupdate base ic)
    ∧ (∀ k v, dlookup ic k = some v → dlookup (dupdate base ic) k = some v)
    ∧ currentDefaults (create_invoker f ic).1 t = dupdate base ic := by
  have hstate : (create_invoker f ic).1
      = { f with config := dinsert f.config t (dupdate base ic) } := by
    simp [create_invoker, htype, hreg, hdef]
  refine ⟨?_, ?_, ?_⟩
  · rw [hstate]
    exact dlookup_dinsert_self f.config t (dupdate base ic)
  · intro k v hk
    rw [dlookup_dupdate base ic hnd k, hk]
    rfl
  · rw [currentDefaults, hstate]
    simp only
    rw [dlookup_dinsert_self f.config t (dupdate base ic)]
    rfl

/-- Claim C10, witness: defaults `{"sql": {"a": 1}}`, step
`{"type": "sql", "b": 2}`; afterwards the stored `sql` entry holds
`a=1, type="sql", b=2`. -/
theorem create_invoker_mutates_defaults_witness :
    dlookup (create_invoker
        (⟨[("sql", [("a", ConfigValue.num 1)])],
          [("sql", "SqlInvoker")]⟩ : InvokerFactory String)
        [("type", ConfigValue.str "sql"), ("b", ConfigValue.num 2)]).1.config "sql"
      = some (dupdate [("a", ConfigValue.num 1)]
          [("type", ConfigValue.str "sql"), ("b", ConfigValue.num 2)])
    ∧ dlookup (dupdate [("a", ConfigValue.num 1)]
        [("type", ConfigValue.str "sql"), ("b", ConfigValue.num 2)]) "type"
      = some (ConfigValue.str "sql") := by
  have h := create_invoker_mutates_defaults
    (⟨[("sql", [("a", ConfigValue.num 1)])],
      [("sql", "SqlInvoker")]⟩ : InvokerFactory String)
    [("type", ConfigValue.str "sql"), ("b", ConfigValue.num 2)]
    "sql" "SqlInvoker" [("a", ConfigValue.num 1)]
    (by decide) (by decide) (by decide) (by decide)
  exact ⟨h.1, h.2.1 "type" (ConfigValue.str "sql") (by decide)⟩

/-! ## Claim theorems: bounded Neo4j query executor -/

/-- Claim C2, counterexample.  When the backing store raises an exception
whose `str` is empty, `execute` still converts it to error-as-data, but the
`error` field is the empty string — not a non-empty message as claimed. -/
theorem execute_nonempty_error_counterexample :
    (Neo4jClient.executeResult ⟨"neo4j", 1000, none, false⟩ (.raises "")).error
      = some ""
    ∧ ((Neo4jClient.executeResult ⟨"neo4j", 1000, none, false⟩
        (.raises "")).error.getD "fallback").length = 0
    ∧ Neo4jClient.execute ⟨"neo4j", 1000, none, false⟩ (.raises "")
      = "\x7b\"headers\":[],\"records\":[],\"has_more\":false,\"error\":\"\"\x7d" := by
  refine ⟨rfl, rfl, by decide⟩

/-- Claim C2, amended: any exception raised by the backing store during
execution is caught at the adapter boundary and the call returns the JSON
serialization of a `QueryResult` with `headers=[]`, `records=[]`,
`has_more=false` and `error` set to the exception's message — which is
non-empty exactly when that message is non-empty.  `execute` is a total
function of the backing outcome, so the exception never propagates to the
caller. -/
theorem execute_error_as_data (c : Neo4jClient) (msg : String) :
    Neo4jClient.executeResult c (.raises msg)
      = { headers := [], records := [], has_more := false, error := some msg }
    ∧ Neo4jClient.execute c (.raises msg)
      = Neo4jQueryResult.model_dump_json
          { headers := [], records := [], has_more := false, error := some msg } :=
  ⟨rfl, rfl⟩

/-- Claim C2, witness at a concrete client and exception message. -/
theorem execute_error_as_data_witness :
    Neo4jClient.executeResult ⟨"neo4j", 1000, none, false⟩ (.raises "boom")
      = { headers := [], records := [], has_more := false, error := some "boom" }
    ∧ Neo4jClient.execute ⟨"neo4j", 1000, none, false⟩ (.raises "boom")
      = Neo4jQueryResult.model_dump_json
          { headers := [], records := [], has_more := false, error := some "boom" } :=
  execute_error_as_data ⟨"neo4j", 1000, none, false⟩ "boom"

/-- Claim C3: on a successful execution over a live cursor, `has_more` is
true iff strictly more rows exist beyond the configured limit; with exactly
`limit` rows all of them are returned and `has_more=false`; with at least
`limit+1` rows exactly `limit` rows are returned and `has_more=true`. -/
theorem limiting_transformer_has_more_iff (c : Neo4jClient) (res : Neo4jCursor)
    (hpeek : res.peekConsumed = false) :
    ((c.limiting_transformer res).has_more = true ↔ c.limit < res.rows.length)
    ∧ (res.rows.length = c.limit →
        (c.limiting_transformer res).records = res.rows
        ∧ (c.limiting_transformer res).has_more = false)
    ∧ (c.limit + 1 ≤ res.rows.length →
        (c.limiting_transformer res).records.length = c.limit
        ∧ (c.limiting_transformer res).records = res.rows.take c.limit
        ∧ (c.limiting_transformer res).has_more = true) := by
  have hm : (c.limiting_transformer res).has_more
      = ((res.rows.drop c.limit).head?).isSome := by
    simp [Neo4jClient.limiting_transformer, Neo4jQueryResult.from_neo4j_result, hpeek]
  have hrec : (c.limiting_transformer res).records = res.rows.take c.limit := by
    simp [Neo4jClient.limiting_transformer, Neo4jQueryResult.from_neo4j_result]
  have key : ((res.rows.drop c.limit).head?).isSome = true ↔ c.limit < res.rows.length := by
    cases hd : res.rows.drop c.limit with
    | nil =>
      have hlen := congrArg List.length hd
      simp [List.length_drop] at hlen
      simp only [List.head?_nil, Option.isSome_none, Bool.false_eq_true, false_iff]
      omega
    | cons a t =>
      have hlen := congrArg List.length hd
      simp [List.length_drop] at hlen
      simp only [List.head?_cons, Option.isSome_some, true_iff]
      omega
  refine ⟨by rw [hm]; exact key, ?_, ?_⟩
  · intro hEq
    have hdropnil : res.rows.drop c.limit = [] :=
      List.drop_eq_nil_of_le (le_of_eq hEq)
    refine ⟨?_, ?_⟩
    · rw [hrec]
      exact List.take_of_length_le (le_of_eq hEq)
    · rw [hm, hdropnil]
      rfl
  · intro hlt
    refine ⟨?_, hrec, ?_⟩
    · rw [hrec]
      simp [List.length_take]
      omega
    · rw [hm, key]
      omega

/-- Claim C3, witness: limit 2 against cursors of 2 and of 3 rows. -/
theorem limiting_transformer_has_more_iff_witness :
    ((⟨"neo4j", 2, none, false⟩ : Neo4jClient).limiting_transformer
        ⟨[[FieldVal.i 1], [FieldVal.i 2]], ["n"], false⟩).records
      = [[FieldVal.i 1], [FieldVal.i 2]]
    ∧ ((⟨"neo4j", 2, none, false⟩ : Neo4jClient).limiting_transformer
        ⟨[[FieldVal.i 1], [FieldVal.i 2]], ["n"], false⟩).has_more = false
    ∧ ((⟨"neo4j", 2, none, false⟩ : Neo4jClient).limiting_transformer
        ⟨[[FieldVal.i 1], [FieldVal.i 2], [FieldVal.i 3]], ["n"], false⟩).records.length = 2
    ∧ ((⟨"neo4j", 2, none, false⟩ : Neo4jClient).limiting_transformer
        ⟨[[FieldVal.i 1], [FieldVal.i 2], [FieldVal.i 3]], ["n"], false⟩).has_more = true := by
  have h2 := limiting_transformer_has_more_iff ⟨"neo4j", 2, none, false⟩
    ⟨[[FieldVal.i 1], [FieldVal.i 2]], ["n"], false⟩ rfl
  have h3 := limiting_transformer_has_more_iff ⟨"neo4j", 2, none, false⟩
    ⟨[[FieldVal.i 1], [FieldVal.i 2], [FieldVal.i 3]], ["n"], false⟩ rfl
  exact ⟨(h2.2.1 rfl).1, (h2.2.1 rfl).2,
    (h3.2.2 (by decide)).1, (h3.2.2 (by decide)).2.2⟩

/-- Claim C4: when the peek after fetching raises `ResultConsumedError`
(cursor exhausted or closed by the fetch), the transformer treats it as "no
more rows": `has_more=false` and no error is set in the result. -/
theorem limiting_transformer_consumed_no_error (c : Neo4jClient) (res : Neo4jCursor)
    (hpeek : res.peekConsumed = true) :
    (c.limiting_transformer res).has_more = false
    ∧ (c.limiting_transformer res).error = none := by
  constructor <;>
    simp [Neo4jClient.limiting_transformer, Neo4jQueryResult.from_neo4j_result, hpeek]

/-- Claim C4, witness: a consumed cursor still holding fetched rows. -/
theorem limiting_transformer_consumed_no_error_witness :
    ((⟨"neo4j", 2, none, false⟩ : Neo4jClient).limiting_transformer
        ⟨[[FieldVal.i 1], [FieldVal.i 2]], ["n"], true⟩).has_more = false
    ∧ ((⟨"neo4j", 2, none, false⟩ : Neo4jClient).limiting_transformer
        ⟨[[FieldVal.i 1], [FieldVal.i 2]], ["n"], true⟩).error = none :=
  limiting_transformer_consumed_no_error ⟨"neo4j", 2, none, false⟩
    ⟨[[FieldVal.i 1], [FieldVal.i 2]], ["n"], true⟩ rfl

/-! ## Claim theorems: shared driver lifecycle -/

theorem runInits_some (d : Driver) (es : List (Neo4jConnConfig × Bool)) :
    runInits (some d) es
      = (some d,
         es.map fun _ => { createdDriver := false, verifyAttempted := false,
                           result := .ok () }) := by
  induction es with
  | nil => rfl
  | cons e rest ih =>
    obtain ⟨cfg, v⟩ := e
    simp [runInits, neo4jFactoryInit, ih]

/-- Claim C8: with no construction, no driver exists (lazy creation); in any
nonempty sequence of constructions the driver is created exactly on the
first one, which is also the only one that verifies connectivity, and its
construction propagates a connectivity error iff verification fails; every
later construction reuses the driver created from the first configuration
without creating or verifying and returns normally; the final global still
holds that same driver (never torn down), and the total number of driver
creations over the whole sequence is exactly one. -/
theorem neo4j_shared_driver_lifecycle (cfg : Neo4jConnConfig) (verifyOk : Bool)
    (rest : List (Neo4jConnConfig × Bool)) :
    runInits none [] = (none, [])
    ∧ runInits none ((cfg, verifyOk) :: rest)
      = (some (create_driver cfg),
         { createdDriver := true, verifyAttempted := true,
           result := if verifyOk then .ok () else .error "connectivity failure" }
         :: rest.map fun _ => { createdDriver := false, verifyAttempted := false,
                                result := .ok () })
    ∧ (runInits none ((cfg, verifyOk) :: rest)).2.countP
        (fun o => o.createdDriver) = 1
    ∧ (runInits none ((cfg, verifyOk) :: rest)).2.countP
        (fun o => o.verifyAttempted) = 1 := by
  have hmain : runInits none ((cfg, verifyOk) :: rest)
      = (some (create_driver cfg),
         { createdDriver := true, verifyAttempted := true,
           result := if verifyOk then .ok () else .error "connectivity failure" }
         :: rest.map fun _ => { createdDriver := false, verifyAttempted := false,
                                result := .ok () }) := by
    simp [runInits, neo4jFactoryInit, runInits_some]
  refine ⟨rfl, hmain, ?_, ?_⟩ <;>
    simp [hmain, List.countP_cons, List.countP_map, Function.comp_def, List.countP_eq_zero]

/-! ## Claim theorems: Azure OpenAI chat adapter -/

theorem chat_map_lookup_none (r : String)
    (h : r ∉ (["system", "assistant", "user"] : List String)) :
    dlookup CHAT_COMPLETION_MAP r = none := by
  simp only [List.mem_cons, List.not_mem_nil, or_false, not_or] at h
  obtain ⟨h1, h2, h3⟩ := h
  have g1 : ¬("system" = r) := fun hh => h1 hh.symm
  have g2 : ¬("assistant" = r) := fun hh => h2 hh.symm
  have g3 : ¬("user" = r) := fun hh => h3 hh.symm
  simp [CHAT_COMPLETION_MAP, dlookup, g1, g2, g3]

theorem buildMessages_append_error (pre : List (List (String × String)))
    (e : List (String × String)) (post : List (List (String × String)))
    (err : ChatError)
    (hpre : ∀ x ∈ pre, ∃ m, chat_completion_message x = .ok m)
    (he : chat_completion_message e = .error err) :
    buildMessages (pre ++ e :: post) = .error err := by
  induction pre with
  | nil => simp [buildMessages, he]
  | cons a rest ih =>
    obtain ⟨m, hm⟩ := hpre a (by simp)
    have hrest := ih (fun x hx => hpre x (by simp [hx]))
    simp only [List.cons_append, buildMessages, hm, List.append_eq]
    rw [hrest]

/-- Claim C9: the chat adapter raises a descriptive error for each kind of
malformed input and the error reaches the caller: unparsable JSON payload
yields the unparsable-payload error; a dialogue element without a `role`
key yields the missing-role error; an element whose role is none of
`system`/`assistant`/`user` yields an error naming that unknown role; an
element with a known role but no `content` key yields the missing-content
error; and whenever every element before a malformed one converts cleanly,
`invoke` on the whole dialogue propagates that element's error. -/
theorem azure_chat_invoke_errors :
    azureChatInvoke none = .error .unparsablePayload
    ∧ (∀ e, dlookup e "role" = none →
        chat_completion_message e = .error .missingRole)
    ∧ (∀ e r, dlookup e "role" = some r →
        r ∉ (["system", "assistant", "user"] : List String) →
        chat_completion_message e = .error (.unknownRole r))
    ∧ (∀ e r, dlookup e "role" = some r →
        r ∈ (["system", "assistant", "user"] : List String) →
        dlookup e "content" = none →
        chat_completion_message e = .error .missingContent)
    ∧ (∀ pre e post err,
        (∀ x ∈ pre, ∃ m, chat_completion_message x = .ok m) →
        chat_completion_message e = .error err →
        azureChatInvoke (some (pre ++ e :: post)) = .error err) := by
  refine ⟨rfl, ?_, ?_, ?_, ?_⟩
  · intro e hrole
    simp [chat_completion_message, hrole]
  · intro e r hrole hmem
    simp [chat_completion_message, hrole, chat_map_lookup_none r hmem]
  · intro e r hrole hmem hcont
    have : ∃ cls, dlookup CHAT_COMPLETION_MAP r = some cls := by
      simp only [List.mem_cons, List.not_mem_nil, or_false] at hmem
      rcases hmem with h | h | h
      · subst h
        exact ⟨ChatCls.system, by decide⟩
      · subst h
        exact ⟨ChatCls.assistant, by decide⟩
      · subst h
        exact ⟨ChatCls.user, by decide⟩
    obtain ⟨cls, hcls⟩ := this
    simp [chat_completion_message, hrole, hcls, hcont]
  · intro pre e post err hpre he
    simp only [azureChatInvoke]
    exact buildMessages_append_error pre e post err hpre he

/-- Claim C9, witness: each malformed-input case at a concrete dialogue,
including propagation out of `invoke` past a well-formed first element. -/
theorem azure_chat_invoke_errors_witness :
    azureChatInvoke none = .error .unparsablePayload
    ∧ chat_completion_message [("content", "hi")] = .error .missingRole
    ∧ chat_completion_message [("role", "emperor"), ("content", "hi")]
      = .error (.unknownRole "emperor")
    ∧ chat_completion_message [("role", "user")] = .error .missingContent
    ∧ azureChatInvoke
        (some [[("role", "user"), ("content", "hi")], [("role", "user")]])
      = .error .missingContent := by
  refine ⟨azure_chat_invoke_errors.1, ?_, ?_, ?_, ?_⟩
  · exact azure_chat_invoke_errors.2.1 [("content", "hi")] (by decide)
  · exact azure_chat_invoke_errors.2.2.1 [("role", "emperor"), ("content", "hi")]
      "emperor" (by decide) (by decide)
  · exact azure_chat_invoke_errors.2.2.2.1 [("role", "user")] "user"
      (by decide) (by decide) (by decide)
  · exact azure_chat_invoke_errors.2.2.2.2
      [[("role", "user"), ("content", "hi")]] [("role", "user")] [] .missingContent
      (by
        intro x hx
        simp only [List.mem_singleton] at hx
        subst hx
        exact ⟨{ cls := ChatCls.user, role := "user", content := "hi" }, by decide⟩)
      (azure_chat_invoke_errors.2.2.2.1 [("role", "user")] "user"
        (by decide) (by decide) (by decide))

end GenieFlow
